import Mathlib

set_option maxRecDepth 100000

/-!
Shallow embedding of the photo-to-comic converter front end
(source file: src/index.tsx).

The program is a single-page browser application: the user selects an
image file, chooses a comic style and two boolean options, and triggers a
conversion that calls a remote generative-image service.  The embedding
below models

* the pure prompt builder `buildPrompt` (src/index.tsx lines 122-143),
* the file-to-base64 codec `fileToBase64` (lines 61-68), together with a
  model of the platform primitive FileReader.readAsDataURL,
* the result renderer `displayResult` (lines 149-169),
* the loading-state toggle `setLoadingState` (lines 176-185),
* the event handlers `handleFileChange` (lines 38-53) and
  `handleConvertToComic` (lines 75-116).

The mutable DOM plus the `uploadedFile` variable are modelled as a record
`UIState`; every handler becomes a state transformer.  The outcome of the
asynchronous steps (file read, remote call) is supplied as an explicit
environment value, so a handler is a function of the state and of the
environment.  JavaScript strings are modelled as Lean strings; where the
source splits a string on a character we work on the underlying character
list.
-/

namespace PeopleToComic

/-- Boolean check that `pat` occurs at the head of `text` (character lists,
used to model substring occurrence in JavaScript strings). -/
def leadsWith : List Char → List Char → Bool
  | [], _ => true
  | _ :: _, [] => false
  | p :: ps, t :: ts => p == t && leadsWith ps ts

/-- Boolean check that `pat` occurs somewhere inside `text`. -/
def listContains : List Char → List Char → Bool
  | [], pat => pat.isEmpty
  | t :: ts, pat => leadsWith pat (t :: ts) || listContains ts pat

/-- Substring occurrence on strings: `strContains s pat = true` iff `pat`
occurs contiguously in `s`. -/
def strContains (s pat : String) : Bool :=
  listContains s.toList pat.toList

/-- Options read from the three UI controls: the style selector value and
the two checkbox states (`comic-style`, `keep-background`, `add-frame`). -/
structure ConversionOptions where
  style : String
  keepBackground : Bool
  addFrame : Bool
deriving DecidableEq

/-- Base instruction of the prompt (src/index.tsx line 123). -/
def baseInstruction : String :=
  "Convert this photo into a clean, high-contrast comic illustration with inky outlines, simplified shading, and halftone texture. Preserve the subject’s identity and scene composition."

/-- Own properties of the fixed style table object literal
(src/index.tsx lines 125-130): `none` means the key is not an own
property of the literal.  The full bracket lookup of the source also
walks the prototype chain; that is modelled by `styleMapLookup` below. -/
def styleMap (key : String) : Option String :=
  if key = "manga" then
    some "Style it like black-and-white manga, with screentone halftone, fine linework, and dynamic speed lines."
  else if key = "western" then
    some "Style it like a classic Western comic, with bold ink lines, flat cel-shading, and CMYK halftone dots."
  else if key = "pop-art" then
    some "Style it like Pop-art, with a bright saturated palette, thick outlines, and prominent halftone dots for a poster look."
  else if key = "cel-shade" then
    some "Style it with a clean cel-shaded look, using minimal outlines, smooth cel shadows, and a soft background."
  else
    none

/-- The four style keys of the lookup table. -/
def allStyles : List String :=
  ["manga", "western", "pop-art", "cel-shade"]

/-- Property names a plain object literal inherits from Object.prototype,
so that a bracket lookup with one of these keys yields the inherited
member (a function, or the prototype object for the accessor key) rather
than the `undefined` value. -/
def protoKeys : List String :=
  ["constructor", "hasOwnProperty", "isPrototypeOf", "propertyIsEnumerable",
   "toLocaleString", "toString", "valueOf", "__proto__",
   "__defineGetter__", "__defineSetter__", "__lookupGetter__",
   "__lookupSetter__"]

/-- Classification of the bracket lookup styleMap[key] of the source
(src/index.tsx line 133): an own-property hit returning its clause, an
inherited Object.prototype member reached through the prototype chain, or
a true miss yielding the `undefined` value. -/
inductive JsLookupResult where
  | hit : String → JsLookupResult
  | inheritedMember : JsLookupResult
  | undefinedMiss : JsLookupResult
deriving DecidableEq

/-- The full JavaScript bracket lookup on the style table: own properties
first, then the prototype chain, then the `undefined` value. -/
def styleMapLookup (key : String) : JsLookupResult :=
  match styleMap key with
  | some clause => JsLookupResult.hit clause
  | none =>
    if key ∈ protoKeys then JsLookupResult.inheritedMember
    else JsLookupResult.undefinedMiss

/-- Text that template interpolation inserts for the style lookup: the
clause on an own-property hit, the literal text undefined on a true miss
(JavaScript stringifies the `undefined` value inside a template literal).
For a key inherited from Object.prototype the real program interpolates a
host-dependent stringification of the inherited member, which is not
representable here; this function is therefore exact only for keys that
are own properties or true misses, and every theorem that evaluates it
stays on that domain. -/
def styleClauseText (style : String) : String :=
  match styleMap style with
  | some clause => clause
  | none => "undefined"

/-- The background-replacement clause, leading space included exactly as
appended at src/index.tsx line 136. -/
def backgroundClause : String :=
  " Replace the background with a clean white background."

/-- The framing clause, leading space included exactly as appended at
src/index.tsx line 139. -/
def frameClause : String :=
  " Add a classic comic book panel frame around the image, including a small empty caption box at the bottom."

/-- Embedding of `buildPrompt` (src/index.tsx lines 122-143).  Exact
whenever `options.style` is an own property of the style table or a true
lookup miss; for a key naming an inherited Object.prototype member the
interpolated text is host dependent (see `styleClauseText`), so no
theorem evaluates the builder there. -/
def buildPrompt (options : ConversionOptions) : String :=
  let finalPrompt := baseInstruction
  let finalPrompt := finalPrompt ++ " " ++ styleClauseText options.style
  let finalPrompt :=
    if !options.keepBackground then finalPrompt ++ backgroundClause else finalPrompt
  let finalPrompt :=
    if options.addFrame then finalPrompt ++ frameClause else finalPrompt
  finalPrompt

/-- A selected file: display name, MIME type, and the base64 encoding of
its raw bytes as the platform produces it (the base64 alphabet contains no
comma). -/
structure File where
  name : String
  type : String
  base64Data : String
deriving DecidableEq

/-- Model of the platform primitive FileReader.readAsDataURL: reading a
file yields the data URI built from its MIME type and the base64 encoding
of its bytes. -/
def readAsDataURL (f : File) : String :=
  "data:" ++ f.type ++ ";base64," ++ f.base64Data

/-- Model of the JavaScript split method with a one-character separator:
cuts the list at every occurrence of `sep`, keeping empty pieces. -/
def jsSplit (sep : Char) : List Char → List (List Char)
  | [] => [[]]
  | c :: cs =>
    let rest := jsSplit sep cs
    if c = sep then [] :: rest
    else
      match rest with
      | [] => [[c]]
      | r :: rs => (c :: r) :: rs

/-- Embedding of `fileToBase64` (src/index.tsx lines 61-68): the reader
result string is split on the comma and the piece at index 1 is returned
(the piece between the first and the second comma). -/
def fileToBase64 (f : File) : String :=
  String.mk ((jsSplit ',' (readAsDataURL f).toList).getD 1 [])

/-- Inline image data carried by a response part. -/
structure InlineData where
  data : String
  mimeType : String
deriving DecidableEq

/-- One part of the remote response: optional inline image data and
optional text. -/
structure Part where
  inlineData : Option InlineData
  text : Option String
deriving DecidableEq

/-- Content of a response candidate: its list of parts. -/
structure Content where
  parts : List Part
deriving DecidableEq

/-- One candidate of the remote response; a missing content field is
`none` (accessing `.parts` on it throws in JavaScript). -/
structure Candidate where
  content : Option Content
deriving DecidableEq

/-- Outcome of the remote generateContent call: either the promise
rejects, or it resolves with a list of candidates. -/
inductive RemoteResult where
  | throws : RemoteResult
  | resolves : List Candidate → RemoteResult
deriving DecidableEq

/-- Environment of one conversion attempt: whether the file read
resolves, and the outcome of the remote call. -/
structure ConvertEnv where
  readOk : Bool
  remote : RemoteResult
deriving DecidableEq

/-- What the result container shows: raw markup set through innerHTML, or
a single appended image element with its src and alt attributes. -/
inductive OutputView where
  | html : String → OutputView
  | image : String → String → OutputView
deriving DecidableEq

/-- Placeholder markup set by `handleFileChange` (src/index.tsx line 51). -/
def placeholderHTML : String :=
  "<div class=\"placeholder\">Your comic version will appear here.</div>"

/-- Spinner markup set by `setLoadingState` (src/index.tsx line 180). -/
def spinnerHTML : String :=
  "<div class=\"spinner\"></div>"

/-- Generic error markup set by the catch block (src/index.tsx line 112). -/
def errorHTML : String :=
  "<p style=\"color: red;\">An error occurred. Please try again.</p>"

/-- Markup for a response without image data (src/index.tsx line 167). -/
def couldNotGenerateHTML : String :=
  "<p>Could not generate an image from the response.</p>"

/-- The mutable program state: the `uploadedFile` variable and the
DOM pieces the handlers read or write. -/
structure UIState where
  uploadedFile : Option File
  fileName : String
  originalImageSrc : String
  convertDisabled : Bool
  convertLabel : String
  comicOutput : OutputView
  downloadHref : String
  downloadDisplay : String
deriving DecidableEq

/-- Embedding of `handleFileChange` (src/index.tsx lines 38-53): the
argument `files` is the file-input selection list; with a nonempty list
the first file is stored, its name shown, the preview loaded through the
reader (readAsDataURL), the convert button enabled, the download link
hidden and the placeholder restored; otherwise nothing happens. -/
def handleFileChange (s : UIState) (files : List File) : UIState :=
  match files with
  | [] => s
  | f :: _ =>
    { s with
      uploadedFile := some f
      fileName := f.name
      originalImageSrc := readAsDataURL f
      convertDisabled := false
      downloadDisplay := "none"
      comicOutput := OutputView.html placeholderHTML }

/-- Embedding of `setLoadingState` (src/index.tsx lines 176-185). -/
def setLoadingState (s : UIState) (isLoading : Bool) : UIState :=
  let s1 := { s with convertDisabled := isLoading }
  if isLoading then
    { s1 with
      convertLabel := "Converting..."
      comicOutput := OutputView.html spinnerHTML
      downloadDisplay := "none" }
  else
    { s1 with convertLabel := "Convert to Comic" }

/-- Embedding of `displayResult` (src/index.tsx lines 149-169): the first
part carrying inline data wins; the recursion mirrors the find call that
scans the parts left to right. -/
def displayResult (s : UIState) : List Part → UIState
  | [] => { s with comicOutput := OutputView.html couldNotGenerateHTML }
  | p :: ps =>
    match p.inlineData with
    | some d =>
      let imageUrl := "data:" ++ d.mimeType ++ ";base64," ++ d.data
      { s with
        comicOutput := OutputView.image imageUrl "Generated comic-style image"
        downloadHref := imageUrl
        downloadDisplay := "inline-block" }
    | none => displayResult s ps

/-- Model of the expression response.candidates[0].content.parts
(src/index.tsx line 108): `none` means the access throws (no candidate,
or the first candidate has no content), which the catch block receives. -/
def extractParts (candidates : List Candidate) : Option (List Part) :=
  match candidates with
  | [] => none
  | c :: _ =>
    match c.content with
    | none => none
    | some ct => some ct.parts

/-- Result of one click on the convert button: the final state, plus a
flag recording whether the remote client was invoked at all. -/
structure ConvertTrace where
  state : UIState
  remoteInvoked : Bool
deriving DecidableEq

/-- Embedding of `handleConvertToComic` (src/index.tsx lines 75-116).
With no uploaded file the handler alerts and returns (the alert is not
part of the modelled state).  Otherwise the loading state is entered; a
read failure, a rejected remote call, or a throwing candidates access all
land in the catch block, which writes the generic error markup; a
successful parts extraction goes to `displayResult`; the finally block
always leaves the loading state. -/
def handleConvertToComic (s : UIState) (env : ConvertEnv) : ConvertTrace :=
  match s.uploadedFile with
  | none => { state := s, remoteInvoked := false }
  | some _ =>
    let s1 := setLoadingState s true
    match env.readOk, env.remote with
    | false, _ =>
      { state := setLoadingState { s1 with comicOutput := OutputView.html errorHTML } false
        remoteInvoked := false }
    | true, RemoteResult.throws =>
      { state := setLoadingState { s1 with comicOutput := OutputView.html errorHTML } false
        remoteInvoked := true }
    | true, RemoteResult.resolves cands =>
      match extractParts cands with
      | none =>
        { state := setLoadingState { s1 with comicOutput := OutputView.html errorHTML } false
          remoteInvoked := true }
      | some parts =>
        { state := setLoadingState (displayResult s1 parts) false
          remoteInvoked := true }

/-- A sample selected file used by concrete witnesses. -/
def sampleFile : File :=
  { name := "photo.png", type := "image/png", base64Data := "iVBORw0KGgo" }

/-- The idle state: no file selected yet. -/
def idleState : UIState :=
  { uploadedFile := none
    fileName := "No file chosen"
    originalImageSrc := ""
    convertDisabled := true
    convertLabel := "Convert to Comic"
    comicOutput := OutputView.html placeholderHTML
    downloadHref := ""
    downloadDisplay := "none" }

/-- The ready state after selecting `sampleFile`. -/
def readyState : UIState :=
  handleFileChange idleState [sampleFile]

/-- Both boolean values, used to close quantifiers for `decide`. -/
def boolList : List Bool := [true, false]

theorem mem_boolList (b : Bool) : b ∈ boolList := by cases b <;> decide

/-- Master table: over the four enumerated styles and both flags, the
prompt contains the clause of style `s` exactly when `s` is the selected
style. -/
theorem contains_style_master :
    ∀ st ∈ allStyles, ∀ kb ∈ boolList, ∀ af ∈ boolList, ∀ s ∈ allStyles,
      strContains (buildPrompt ⟨st, kb, af⟩) (styleClauseText s) = (st == s) := by
  decide

/-- Master table: the background clause appears exactly when
`keepBackground` is false, the frame clause exactly when `addFrame` is
true. -/
theorem contains_flags_master :
    ∀ st ∈ allStyles, ∀ kb ∈ boolList, ∀ af ∈ boolList,
      strContains (buildPrompt ⟨st, kb, af⟩) backgroundClause = !kb ∧
      strContains (buildPrompt ⟨st, kb, af⟩) frameClause = af := by
  decide

/-- On a style-table hit, the interpolated text is the clause itself. -/
theorem styleClauseText_of_some {st c : String} (h : styleMap st = some c) :
    styleClauseText st = c := by
  unfold styleClauseText
  rw [h]

/-- The prompt is always the base instruction, a space, the interpolated
style text, then the optional background and frame clauses, in that
order. -/
theorem buildPrompt_decomp (o : ConversionOptions) :
    buildPrompt o =
      baseInstruction ++ " " ++ styleClauseText o.style ++
        (if o.keepBackground then "" else backgroundClause) ++
        (if o.addFrame then frameClause else "") := by
  obtain ⟨st, kb, af⟩ := o
  cases kb <;> cases af <;>
    simp [buildPrompt, String.append_empty]

/-- C1: for every ConversionOptions whose style is one of the four
enumerated values, the string returned by buildPrompt contains the fixed
clause mapped to that style verbatim, and contains none of the clauses
mapped to the other three styles. -/
theorem buildPrompt_style_clause_exclusive
    (o : ConversionOptions) (c : String)
    (hmem : o.style ∈ allStyles) (hc : styleMap o.style = some c) :
    strContains (buildPrompt o) c = true ∧
    ∀ s c2, s ∈ allStyles → s ≠ o.style → styleMap s = some c2 →
      strContains (buildPrompt o) c2 = false := by
  obtain ⟨st, kb, af⟩ := o
  simp only at hmem hc
  constructor
  · have h := contains_style_master st hmem kb (mem_boolList kb) af
      (mem_boolList af) st hmem
    rw [styleClauseText_of_some hc] at h
    simpa using h
  · intro s c2 hs hne hc2
    have h := contains_style_master st hmem kb (mem_boolList kb) af
      (mem_boolList af) s hs
    rw [styleClauseText_of_some hc2] at h
    rw [h]
    exact beq_eq_false_iff_ne.mpr fun hh => hne (hh ▸ rfl)

theorem buildPrompt_style_clause_exclusive_witness :
    (("manga" : String) ∈ allStyles) ∧
    (styleMap "manga" =
      some "Style it like black-and-white manga, with screentone halftone, fine linework, and dynamic speed lines.") ∧
    strContains (buildPrompt ⟨"manga", true, false⟩)
      "Style it like black-and-white manga, with screentone halftone, fine linework, and dynamic speed lines." = true ∧
    strContains (buildPrompt ⟨"manga", true, false⟩)
      "Style it like a classic Western comic, with bold ink lines, flat cel-shading, and CMYK halftone dots." = false :=
  ⟨by decide, rfl,
    (buildPrompt_style_clause_exclusive ⟨"manga", true, false⟩ _ (by decide) rfl).1,
    (buildPrompt_style_clause_exclusive ⟨"manga", true, false⟩ _ (by decide) rfl).2
      "western" _ (by decide) (by decide) rfl⟩

/-- C2: the prompt contains the background clause iff keepBackground is
false and the frame clause iff addFrame is true; over the four styles the
sixteen outputs are pairwise distinct (the builder is injective there);
and the output is assembled in the fixed order base instruction, style
clause, background clause, frame clause. -/
theorem buildPrompt_flags_independent
    (o : ConversionOptions) (hmem : o.style ∈ allStyles) :
    (strContains (buildPrompt o) backgroundClause = true ↔
      o.keepBackground = false) ∧
    (strContains (buildPrompt o) frameClause = true ↔ o.addFrame = true) ∧
    (∀ o2 : ConversionOptions, o2.style ∈ allStyles →
      buildPrompt o = buildPrompt o2 → o = o2) ∧
    buildPrompt o =
      baseInstruction ++ " " ++ styleClauseText o.style ++
        (if o.keepBackground then "" else backgroundClause) ++
        (if o.addFrame then frameClause else "") := by
  obtain ⟨st, kb, af⟩ := o
  simp only at hmem
  obtain ⟨hbg, hfr⟩ := contains_flags_master st hmem kb (mem_boolList kb) af
    (mem_boolList af)
  refine ⟨?_, ?_, ?_, buildPrompt_decomp _⟩
  · rw [hbg]; cases kb <;> simp
  · rw [hfr]
  · intro o2 hmem2 heq
    obtain ⟨st2, kb2, af2⟩ := o2
    simp only at hmem2
    obtain ⟨hbg2, hfr2⟩ := contains_flags_master st2 hmem2 kb2
      (mem_boolList kb2) af2 (mem_boolList af2)
    have hst := contains_style_master st hmem kb (mem_boolList kb) af
      (mem_boolList af) st2 hmem2
    have hst2 := contains_style_master st2 hmem2 kb2 (mem_boolList kb2) af2
      (mem_boolList af2) st2 hmem2
    rw [heq, hst2] at hst
    have hstyle : st = st2 := by
      have : (st == st2) = true := by
        rw [← hst]; exact beq_self_eq_true st2
      exact eq_of_beq this
    rw [heq, hbg2] at hbg
    rw [heq, hfr2] at hfr
    have hk : kb = kb2 := Bool.not_inj hbg.symm
    rw [hstyle, hk, hfr]

theorem buildPrompt_flags_independent_witness :
    (("pop-art" : String) ∈ allStyles) ∧
    (strContains (buildPrompt ⟨"pop-art", false, true⟩) backgroundClause
        = true ↔ false = false) ∧
    (strContains (buildPrompt ⟨"pop-art", false, true⟩) frameClause
        = true ↔ true = true) ∧
    (buildPrompt ⟨"pop-art", false, true⟩ = buildPrompt ⟨"manga", false, true⟩ →
      (⟨"pop-art", false, true⟩ : ConversionOptions) = ⟨"manga", false, true⟩) ∧
    buildPrompt ⟨"pop-art", false, true⟩ =
      baseInstruction ++ " " ++ styleClauseText "pop-art" ++
        (if false then "" else backgroundClause) ++
        (if true then frameClause else "") :=
  ⟨by decide,
    (buildPrompt_flags_independent ⟨"pop-art", false, true⟩ (by decide)).1,
    (buildPrompt_flags_independent ⟨"pop-art", false, true⟩ (by decide)).2.1,
    fun heq =>
      (buildPrompt_flags_independent ⟨"pop-art", false, true⟩
        (by decide)).2.2.1 ⟨"manga", false, true⟩ (by decide) heq,
    (buildPrompt_flags_independent ⟨"pop-art", false, true⟩ (by decide)).2.2.2⟩

/-- C8 counterexample: the key toString lies outside the four enumerated
styles, yet the bracket lookup does not yield the undefined value — it
reaches the inherited Object.prototype member, so the interpolated prompt
does not carry the literal text undefined there. -/
theorem styleLookup_toString_inherited :
    (("toString" : String) ∉ allStyles) ∧
    styleMapLookup "toString" ≠ JsLookupResult.undefinedMiss ∧
    styleMapLookup "toString" = JsLookupResult.inheritedMember := by
  decide

/-- C8 (amended): for a style key outside the four enumerated keys that
is also not a property name inherited from Object.prototype, the lookup
yields the undefined value, the builder does not throw, and the returned
prompt is the base instruction followed by the literal text undefined,
plus the optional background and frame clauses as usual. -/
theorem buildPrompt_unknown_style
    (o : ConversionOptions) (h : o.style ∉ allStyles)
    (hp : o.style ∉ protoKeys) :
    styleMapLookup o.style = JsLookupResult.undefinedMiss ∧
    buildPrompt o =
      baseInstruction ++ " " ++ "undefined" ++
        (if o.keepBackground then "" else backgroundClause) ++
        (if o.addFrame then frameClause else "") := by
  have hnone : styleMap o.style = none := by
    simp only [allStyles, List.mem_cons, List.not_mem_nil, or_false] at h
    push_neg at h
    obtain ⟨h1, h2, h3, h4⟩ := h
    simp [styleMap, h1, h2, h3, h4]
  have hlookup : styleMapLookup o.style = JsLookupResult.undefinedMiss := by
    unfold styleMapLookup
    rw [hnone, if_neg hp]
  refine ⟨hlookup, ?_⟩
  have hclause : styleClauseText o.style = "undefined" := by
    unfold styleClauseText
    rw [hnone]
  rw [buildPrompt_decomp o, hclause]

theorem buildPrompt_unknown_style_witness :
    (("sketch" : String) ∉ allStyles) ∧
    (("sketch" : String) ∉ protoKeys) ∧
    (styleMapLookup "sketch" = JsLookupResult.undefinedMiss ∧
      buildPrompt ⟨"sketch", true, false⟩ =
        baseInstruction ++ " " ++ "undefined" ++
          (if true then "" else backgroundClause) ++
          (if false then frameClause else "")) :=
  ⟨by decide, by decide,
    buildPrompt_unknown_style ⟨"sketch", true, false⟩ (by decide) (by decide)⟩

/-- Leaving the loading state only re-enables the button and restores its
label; every other field is kept. -/
theorem setLoadingState_false_fields (s : UIState) :
    (setLoadingState s false).convertDisabled = false ∧
    (setLoadingState s false).convertLabel = "Convert to Comic" ∧
    (setLoadingState s false).comicOutput = s.comicOutput ∧
    (setLoadingState s false).downloadHref = s.downloadHref ∧
    (setLoadingState s false).downloadDisplay = s.downloadDisplay :=
  ⟨rfl, rfl, rfl, rfl, rfl⟩

/-- The renderer on a parts list whose first inline-data part is `p`
(everything before it carries none): the image is shown and the download
link set, nothing else changes. -/
theorem displayResult_first_inline (s : UIState) (d : InlineData) :
    ∀ (pre : List Part) (p : Part) (post : List Part),
      (∀ q ∈ pre, q.inlineData = none) → p.inlineData = some d →
      displayResult s (pre ++ p :: post) =
        { s with
          comicOutput :=
            OutputView.image ("data:" ++ d.mimeType ++ ";base64," ++ d.data)
              "Generated comic-style image"
          downloadHref := "data:" ++ d.mimeType ++ ";base64," ++ d.data
          downloadDisplay := "inline-block" } := by
  intro pre
  induction pre with
  | nil =>
    intro p post _ hp
    simp [displayResult, hp]
  | cons q qs ih =>
    intro p post hpre hp
    have hq : q.inlineData = none := hpre q (List.mem_cons_self q qs)
    simp only [List.cons_append, displayResult, hq]
    exact ih p post (fun r hr => hpre r (List.mem_cons_of_mem q hr)) hp

/-- The renderer on a parts list with no inline data only writes the
could-not-generate markup. -/
theorem displayResult_no_inline (s : UIState) :
    ∀ parts : List Part, (∀ q ∈ parts, q.inlineData = none) →
      displayResult s parts =
        { s with comicOutput := OutputView.html couldNotGenerateHTML } := by
  intro parts
  induction parts with
  | nil => intro _; rfl
  | cons q qs ih =>
    intro hall
    have hq : q.inlineData = none := hall q (List.mem_cons_self q qs)
    simp only [displayResult, hq]
    exact ih fun r hr => hall r (List.mem_cons_of_mem q hr)

/-- C3: triggering the convert action with no file selected never invokes
the remote client and leaves the whole state unchanged (the warning is an
alert outside the modelled state). -/
theorem convert_noFile_noop (s : UIState) (env : ConvertEnv)
    (h : s.uploadedFile = none) :
    handleConvertToComic s env = { state := s, remoteInvoked := false } := by
  unfold handleConvertToComic
  rw [h]

theorem convert_noFile_noop_witness :
    idleState.uploadedFile = none ∧
    handleConvertToComic idleState ⟨true, RemoteResult.throws⟩ =
      { state := idleState, remoteInvoked := false } :=
  ⟨rfl, convert_noFile_noop idleState ⟨true, RemoteResult.throws⟩ rfl⟩

/-- C4: when the remote response carries at least one part with inline
image data, the flow selects the first such part: the result view shows
an image whose source is the data URI built from that part, and the
download control becomes visible with the same URI. -/
theorem convert_first_inline_displayed (s : UIState) (f : File)
    (cands : List Candidate) (pre post : List Part) (p : Part)
    (d : InlineData)
    (hf : s.uploadedFile = some f)
    (hx : extractParts cands = some (pre ++ p :: post))
    (hpre : ∀ q ∈ pre, q.inlineData = none)
    (hp : p.inlineData = some d) :
    (handleConvertToComic s ⟨true, RemoteResult.resolves cands⟩).state.comicOutput =
      OutputView.image ("data:" ++ d.mimeType ++ ";base64," ++ d.data)
        "Generated comic-style image" ∧
    (handleConvertToComic s ⟨true, RemoteResult.resolves cands⟩).state.downloadHref =
      "data:" ++ d.mimeType ++ ";base64," ++ d.data ∧
    (handleConvertToComic s ⟨true, RemoteResult.resolves cands⟩).state.downloadDisplay =
      "inline-block" := by
  have hdisp := displayResult_first_inline (setLoadingState s true) d pre p post hpre hp
  simp only [handleConvertToComic, hf, hx]
  rw [hdisp]
  exact ⟨rfl, rfl, rfl⟩

theorem convert_first_inline_displayed_witness :
    readyState.uploadedFile = some sampleFile ∧
    extractParts
        [⟨some ⟨[⟨none, some "hello"⟩, ⟨some ⟨"QUJD", "image/png"⟩, none⟩]⟩⟩] =
      some ([⟨none, some "hello"⟩] ++ ⟨some ⟨"QUJD", "image/png"⟩, none⟩ :: []) ∧
    (handleConvertToComic readyState
        ⟨true, RemoteResult.resolves
          [⟨some ⟨[⟨none, some "hello"⟩, ⟨some ⟨"QUJD", "image/png"⟩, none⟩]⟩⟩]⟩).state.comicOutput =
      OutputView.image ("data:" ++ "image/png" ++ ";base64," ++ "QUJD")
        "Generated comic-style image" :=
  ⟨rfl, rfl,
    (convert_first_inline_displayed readyState sampleFile
      [⟨some ⟨[⟨none, some "hello"⟩, ⟨some ⟨"QUJD", "image/png"⟩, none⟩]⟩⟩]
      [⟨none, some "hello"⟩] [] ⟨some ⟨"QUJD", "image/png"⟩, none⟩
      ⟨"QUJD", "image/png"⟩ rfl rfl (by decide) rfl).1⟩

/-- C5: when the remote response has parts but none with inline image
data, the flow ends with the distinct could-not-generate message, which
differs from the generic error message, and the download control stays
hidden. -/
theorem convert_no_image_parts (s : UIState) (f : File)
    (cands : List Candidate) (parts : List Part)
    (hf : s.uploadedFile = some f)
    (hx : extractParts cands = some parts)
    (hall : ∀ q ∈ parts, q.inlineData = none) :
    (handleConvertToComic s ⟨true, RemoteResult.resolves cands⟩).state.comicOutput =
      OutputView.html couldNotGenerateHTML ∧
    couldNotGenerateHTML ≠ errorHTML ∧
    (handleConvertToComic s ⟨true, RemoteResult.resolves cands⟩).state.downloadDisplay =
      "none" := by
  have hdisp := displayResult_no_inline (setLoadingState s true) parts hall
  refine ⟨?_, by decide, ?_⟩ <;>
  · simp only [handleConvertToComic, hf, hx]
    rw [hdisp]
    rfl

theorem convert_no_image_parts_witness :
    readyState.uploadedFile = some sampleFile ∧
    extractParts [⟨some ⟨[⟨none, some "just text"⟩]⟩⟩] =
      some [⟨none, some "just text"⟩] ∧
    ((handleConvertToComic readyState
        ⟨true, RemoteResult.resolves [⟨some ⟨[⟨none, some "just text"⟩]⟩⟩]⟩).state.comicOutput =
      OutputView.html couldNotGenerateHTML ∧
    couldNotGenerateHTML ≠ errorHTML ∧
    (handleConvertToComic readyState
        ⟨true, RemoteResult.resolves [⟨some ⟨[⟨none, some "just text"⟩]⟩⟩]⟩).state.downloadDisplay =
      "none") :=
  ⟨rfl, rfl,
    convert_no_image_parts readyState sampleFile
      [⟨some ⟨[⟨none, some "just text"⟩]⟩⟩] [⟨none, some "just text"⟩]
      rfl rfl (by decide)⟩

/-- C6: with a file selected, every outcome of a conversion attempt runs
the cleanup step: the convert control ends re-enabled with the label
Convert to Comic; and when the remote call throws, the result container
shows the generic error message. -/
theorem convert_always_cleanup (s : UIState) (env : ConvertEnv) (f : File)
    (hf : s.uploadedFile = some f) :
    (handleConvertToComic s env).state.convertDisabled = false ∧
    (handleConvertToComic s env).state.convertLabel = "Convert to Comic" ∧
    (env.readOk = true → env.remote = RemoteResult.throws →
      (handleConvertToComic s env).state.comicOutput =
        OutputView.html errorHTML) := by
  obtain ⟨ro, rem⟩ := env
  cases ro with
  | false =>
    refine ⟨?_, ?_, fun h1 _ => Bool.noConfusion h1⟩ <;>
      simp [handleConvertToComic, hf, setLoadingState]
  | true =>
    cases rem with
    | throws =>
      refine ⟨?_, ?_, fun _ _ => ?_⟩ <;>
        simp [handleConvertToComic, hf, setLoadingState]
    | resolves cands =>
      cases hx : extractParts cands with
      | none =>
        refine ⟨?_, ?_, fun _ h2 => RemoteResult.noConfusion h2⟩ <;>
          simp [handleConvertToComic, hf, hx, setLoadingState]
      | some parts =>
        refine ⟨?_, ?_, fun _ h2 => RemoteResult.noConfusion h2⟩ <;>
          simp [handleConvertToComic, hf, hx, setLoadingState]

theorem convert_always_cleanup_witness :
    readyState.uploadedFile = some sampleFile ∧
    ((handleConvertToComic readyState ⟨true, RemoteResult.throws⟩).state.convertDisabled = false ∧
    (handleConvertToComic readyState ⟨true, RemoteResult.throws⟩).state.convertLabel = "Convert to Comic" ∧
    (true = true → RemoteResult.throws = RemoteResult.throws →
      (handleConvertToComic readyState ⟨true, RemoteResult.throws⟩).state.comicOutput =
        OutputView.html errorHTML)) :=
  ⟨rfl, convert_always_cleanup readyState ⟨true, RemoteResult.throws⟩ sampleFile rfl⟩

/-- C9: when the remote call resolves but the candidates access throws
(no candidate, or the first candidate has no content), the failure is
surfaced as the generic error message, distinct from the empty-result
message, and the convert control is re-enabled. -/
theorem convert_missing_candidates_generic_error (s : UIState) (f : File)
    (cands : List Candidate)
    (hf : s.uploadedFile = some f)
    (hx : extractParts cands = none) :
    (handleConvertToComic s ⟨true, RemoteResult.resolves cands⟩).state.comicOutput =
      OutputView.html errorHTML ∧
    errorHTML ≠ couldNotGenerateHTML ∧
    (handleConvertToComic s ⟨true, RemoteResult.resolves cands⟩).state.convertDisabled =
      false := by
  refine ⟨?_, by decide, ?_⟩ <;>
    simp [handleConvertToComic, hf, hx, setLoadingState]

theorem convert_missing_candidates_generic_error_witness :
    readyState.uploadedFile = some sampleFile ∧
    extractParts [] = none ∧
    ((handleConvertToComic readyState ⟨true, RemoteResult.resolves []⟩).state.comicOutput =
      OutputView.html errorHTML ∧
    errorHTML ≠ couldNotGenerateHTML ∧
    (handleConvertToComic readyState ⟨true, RemoteResult.resolves []⟩).state.convertDisabled =
      false) :=
  ⟨rfl, rfl,
    convert_missing_candidates_generic_error readyState sampleFile [] rfl rfl⟩

/-- C10: a file-selection change event with an empty file list is a
no-op: the whole state, including the uploaded-file slot, file name,
preview, convert control, download control and result display, is left
unchanged. -/
theorem handleFileChange_empty_noop (s : UIState) :
    handleFileChange s [] = s :=
  rfl

/-- Splitting a list free of the separator yields the list itself as the
only piece. -/
theorem jsSplit_no_sep (sep : Char) :
    ∀ b : List Char, sep ∉ b → jsSplit sep b = [b] := by
  intro b
  induction b with
  | nil => intro _; rfl
  | cons c cs ih =>
    intro h
    have hc : ¬ c = sep := fun hh => h (hh ▸ List.mem_cons_self c cs)
    have hcs : sep ∉ cs := fun hh => h (List.mem_cons_of_mem c hh)
    simp only [jsSplit, if_neg hc, ih hcs]

/-- Splitting at the first separator occurrence: the separator-free part
before it becomes the first piece. -/
theorem jsSplit_first_sep (sep : Char) :
    ∀ (a b : List Char), sep ∉ a →
      jsSplit sep (a ++ sep :: b) = a :: jsSplit sep b := by
  intro a
  induction a with
  | nil =>
    intro b _
    simp [jsSplit]
  | cons c cs ih =>
    intro b h
    have hc : ¬ c = sep := fun hh => h (hh ▸ List.mem_cons_self c cs)
    have hcs : sep ∉ cs := fun hh => h (List.mem_cons_of_mem c hh)
    have hne : jsSplit sep (cs ++ sep :: b) = cs :: jsSplit sep b := ih b hcs
    simp only [List.cons_append, jsSplit, if_neg hc, List.append_eq, hne]

/-- C7: for every readable binary resource whose MIME type is comma-free
(the base64 payload the platform produces is comma-free by construction
of the base64 alphabet), encoding to payload form strips exactly the
data-URI head, and re-wrapping the payload with the MIME type reproduces
the original data URI byte for byte. -/
theorem fileToBase64_roundTrip (f : File)
    (ht : ',' ∉ f.type.toList) (hd : ',' ∉ f.base64Data.toList) :
    fileToBase64 f = f.base64Data ∧
    "data:" ++ f.type ++ ";base64," ++ fileToBase64 f = readAsDataURL f := by
  have hlist : (readAsDataURL f).toList =
      ("data:".toList ++ f.type.toList ++ ";base64".toList) ++
        ',' :: f.base64Data.toList := by
    show ("data:" ++ f.type ++ ";base64," ++ f.base64Data).data = _
    have h64 : (";base64," : String).data = (";base64" : String).data ++ [','] := rfl
    simp [String.data_append, h64, List.append_assoc]
  have hnosep : ',' ∉ ("data:".toList ++ f.type.toList ++ ";base64".toList) := by
    intro hmem
    rcases List.mem_append.1 hmem with h12 | h3
    · rcases List.mem_append.1 h12 with h1 | h2
      · exact absurd h1 (by decide)
      · exact ht h2
    · exact absurd h3 (by decide)
  have key : fileToBase64 f = f.base64Data := by
    unfold fileToBase64
    rw [hlist, jsSplit_first_sep ',' _ _ hnosep, jsSplit_no_sep ',' _ hd]
    rfl
  exact ⟨key, by rw [key]; rfl⟩

theorem fileToBase64_roundTrip_witness :
    (',' ∉ ("image/png" : String).toList) ∧
    (',' ∉ ("iVBORw0KGgo" : String).toList) ∧
    (fileToBase64 sampleFile = "iVBORw0KGgo" ∧
      "data:" ++ sampleFile.type ++ ";base64," ++ fileToBase64 sampleFile =
        readAsDataURL sampleFile) :=
  ⟨by decide, by decide, fileToBase64_roundTrip sampleFile (by decide) (by decide)⟩

end PeopleToComic
